import Mathlib

/-!
# VibeDeploy — shallow embedding and verification

A shallow embedding of the VibeDeploy service (Go, `main.go` of the most
complete snapshot) in Lean 4, together with proofs of its specified
properties.

The service consumes Slack "reaction added" events from a Redis pub/sub
channel, resolves PR metadata embedded in the reacted-to message via the
Slack API, gates on an optional repository allowlist, and enqueues a
deployment command (a `PoppitCommand`) onto a Redis list, signalling
progress and completion by publishing Slack reaction mutations.

External effects are modelled as explicit inputs and outputs:
* the Slack conversation-history response is an input
  (`Except String (List SlackMessage)`: transport error or message list);
* the success of each Redis publish is an input `Bool`;
* everything the service pushes outward (reaction mutations and deployment
  commands) is collected, in publish-attempt order, in a `List Outbound`.

JSON values are modelled by the inductive `Json`; field decoding follows
Go `encoding/json` struct-unmarshalling semantics: unknown keys are
ignored, a missing key or a JSON `null` leaves the field at its zero
value, and a type-mismatched value is a decode error.
-/

namespace VibeDeploy

/-- A JSON value. Numbers are modelled as integers, which covers every
field of the wire formats involved (the only numeric field is `pr_number`). -/
inductive Json where
  | null : Json
  | bool (b : Bool) : Json
  | num (n : Int) : Json
  | str (s : String) : Json
  | arr (elems : List Json) : Json
  | obj (fields : List (String × Json)) : Json

/-- Constants from the source: the trigger reaction name. -/
def RocketReaction : String := "rocket"

/-- The in-progress marker reaction name. -/
def GearReaction : String := "gear"

/-- The type tag carried by every synthesized command. -/
def VibeDeployType : String := "vibe-deploy"

/-- The go-live instruction whose completion notice drives the terminal
status transition. -/
def DeploymentCommand : String := "docker compose up -d"

/-- Static configuration, loaded from environment variables at startup.
Only `baseDir` influences the modelled core; the other fields are carried
for fidelity to the source `Config` struct (log level and connection
plumbing are not modelled). -/
structure Config where
  redisAddr : String
  redisPassword : String
  slackToken : String
  baseDir : String
  redisPubSub : String
  redisListName : String
  redisOutputChannel : String
  redisReactionList : String
  allowedReposConfig : String
  deriving Repr, DecidableEq

/-- The `item` block of an inbound reaction event: target-item type,
channel identifier and message timestamp. -/
structure ReactionItem where
  type : String
  channel : String
  ts : String
  deriving Repr, DecidableEq

/-- The `event` block of an inbound reaction event. -/
structure EventBody where
  type : String
  user : String
  reaction : String
  item : ReactionItem
  deriving Repr, DecidableEq

/-- One record of the `authorizations` list of an inbound payload. -/
structure AuthRecord where
  userID : String
  isBot : Bool
  deriving Repr, DecidableEq

/-- An inbound reaction-added notification. -/
structure ReactionEvent where
  event : EventBody
  authorizations : List AuthRecord
  deriving Repr, DecidableEq

/-- PR metadata embedded in a chat message. -/
structure PRMetadata where
  prNumber : Int
  repository : String
  prUrl : String
  author : String
  branch : String
  eventAction : String
  deriving Repr, DecidableEq

/-- The YAML allowlist configuration file shape. -/
structure AllowedReposConfig where
  allowedRepos : List String
  deriving Repr, DecidableEq

/-- The correlation block routed with a command and echoed in its
completion notice. -/
structure CommandMetadata where
  channel : String
  ts : String
  deriving Repr, DecidableEq

/-- An outbound deployment command. `metadata` is a nullable pointer in
the source (`*CommandMetadata`, JSON `omitempty`), modelled as `Option`. -/
structure PoppitCommand where
  repo : String
  branch : String
  type : String
  dir : String
  commands : List String
  metadata : Option CommandMetadata
  deriving Repr, DecidableEq

/-- An inbound completion notice from the executor. -/
structure CommandOutput where
  metadata : Option CommandMetadata
  type : String
  command : String
  output : String
  deriving Repr, DecidableEq

/-- An outbound reaction-mutation request. -/
structure SlackReaction where
  reaction : String
  channel : String
  ts : String
  remove : Bool
  deriving Repr, DecidableEq

/-- A message returned by the Slack conversation-history API; only its
metadata event payload matters to the service. The payload is the
`map[string]interface{}` of the source, modelled as a key/value list. -/
structure SlackMessage where
  eventPayload : List (String × Json)

/-- One outbound publish attempt: either a reaction mutation pushed to the
reaction list or a deployment command pushed to the command list. -/
inductive Outbound where
  | reaction (r : SlackReaction) : Outbound
  | command (c : PoppitCommand) : Outbound
  deriving Repr, DecidableEq

/-- First binding of a key in a JSON object (Go maps have unique keys). -/
def getField (fields : List (String × Json)) (key : String) : Option Json :=
  (fields.find? (fun p => p.1 = key)).map (fun p => p.2)

/-- Go `encoding/json` unmarshalling of an object field into a `string`:
missing key or `null` leaves the zero value `""`; a JSON string is taken
as-is; any other value is a type error. -/
def decodeStringField (fields : List (String × Json)) (key : String) :
    Except String String :=
  match getField fields key with
  | none => .ok ""
  | some .null => .ok ""
  | some (.str s) => .ok s
  | some _ => .error ("cannot unmarshal into Go value of type string: " ++ key)

/-- Go `encoding/json` unmarshalling of an object field into an `int`. -/
def decodeIntField (fields : List (String × Json)) (key : String) :
    Except String Int :=
  match getField fields key with
  | none => .ok 0
  | some .null => .ok 0
  | some (.num n) => .ok n
  | some _ => .error ("cannot unmarshal into Go value of type int: " ++ key)

/-- `json.Unmarshal(metadataJSON, &metadata)` for `PRMetadata`: decode the
six tagged fields, ignoring unknown keys. -/
def decodePRMetadata (fields : List (String × Json)) :
    Except String PRMetadata := do
  let prNumber ← decodeIntField fields "pr_number"
  let repository ← decodeStringField fields "repository"
  let prUrl ← decodeStringField fields "pr_url"
  let author ← decodeStringField fields "author"
  let branch ← decodeStringField fields "branch"
  let eventAction ← decodeStringField fields "event_action"
  return { prNumber, repository, prUrl, author, branch, eventAction }

/-- `getMessageMetadata`: resolve PR metadata for a (channel, timestamp)
reference. The Slack API response is the input: `.error` is a transport
failure, `.ok msgs` the returned message list. Returns a hard error, the
distinct non-error "no metadata" result `.ok none`, or `.ok (some md)`. -/
def getMessageMetadata (history : Except String (List SlackMessage)) :
    Except String (Option PRMetadata) :=
  match history with
  | .error e => .error ("failed to get conversation history: " ++ e)
  | .ok msgs =>
    match msgs with
    | [] => .error "no messages found"
    | message :: _ =>
      -- Check if message has metadata
      if message.eventPayload.length = 0 then .ok none
      else
        -- Parse metadata
        match decodePRMetadata message.eventPayload with
        | .error e => .error ("failed to parse PR metadata: " ++ e)
        | .ok metadata =>
          -- Verify required fields are present
          if metadata.repository = "" || metadata.branch = "" then .ok none
          else .ok (some metadata)

/-- The filesystem/YAML outcome for the allowlist config path, an input to
`loadAllowedRepos`. -/
inductive FileState where
  | absent : FileState
  | readFailure (e : String) : FileState
  | parseFailure (e : String) : FileState
  | parsed (config : AllowedReposConfig) : FileState

/-- `loadAllowedRepos`: returns `.ok none` (allow all) when no path is
configured or the file is absent; a startup error when the file cannot be
read or parsed; otherwise the parsed list converted to a lookup map
(modelled as an association list, every loaded key mapped to `true`). -/
def loadAllowedRepos (configPath : String) (file : FileState) :
    Except String (Option (List (String × Bool))) :=
  -- If no config path specified, allow all repos
  if configPath = "" then .ok none
  else
    match file with
    | .absent => .ok none
    | .readFailure e => .error ("failed to read allowed repos config: " ++ e)
    | .parseFailure e => .error ("failed to parse allowed repos config: " ++ e)
    | .parsed config =>
      .ok (some (config.allowedRepos.map (fun repo => (repo, true))))

/-- `isRepoAllowed`: `nil` map (no config) allows every repository;
otherwise Go map lookup, whose default value is `false`. -/
def isRepoAllowed (repo : String) (allowedRepos : Option (List (String × Bool))) :
    Bool :=
  match allowedRepos with
  | none => true
  | some m => ((m.lookup repo).getD false)

/-- `createPoppitCommand`: pure command synthesis from resolved metadata,
the static base directory and the triggering message's (channel, ts). -/
def createPoppitCommand (metadata : PRMetadata) (config : Config)
    (channel timestamp : String) : PoppitCommand :=
  let dir := config.baseDir ++ "/" ++ metadata.repository
  { repo := metadata.repository
    branch := metadata.branch
    type := VibeDeployType
    dir := dir
    commands := [
      "git fetch origin",
      "git checkout " ++ metadata.branch,
      "git pull",
      "docker compose build",
      "docker compose down",
      DeploymentCommand,
      "git checkout main"]
    metadata := some { channel := channel, ts := timestamp } }

/-- `publishSlackReaction` constructs the reaction-mutation record that is
marshalled and pushed to the reaction list. -/
def publishSlackReaction (channel timestamp reaction : String) (remove : Bool) :
    SlackReaction :=
  { reaction := reaction, channel := channel, ts := timestamp, remove := remove }

/-- `processReactionEvent`: one pass of the primary loop over a decoded
payload (`none` models a JSON parse failure, which is logged and dropped).
`history` is the Slack API response consumed by `getMessageMetadata`;
`gearOk` is whether the Redis push of the gear mutation succeeds. The
result lists every outbound publish attempt in order. -/
def processReactionEvent (payload : Option ReactionEvent)
    (history : Except String (List SlackMessage)) (config : Config)
    (allowedRepos : Option (List (String × Bool))) (gearOk : Bool) :
    List Outbound :=
  match payload with
  | none => []  -- Error parsing reaction event
  | some event =>
    -- Only process rocket emoji reactions
    if event.event.reaction ≠ RocketReaction then []
    -- Only process message items
    else if event.event.item.type ≠ "message" then []
    -- Check if the reaction is from the bot itself
    else if event.authorizations.any
        (fun auth => auth.isBot && auth.userID = event.event.user) then []
    else
      match getMessageMetadata history with
      | .error _ => []  -- Error getting message metadata
      | .ok none => []  -- No PR metadata found in message, skipping
      | .ok (some metadata) =>
        -- Check if repository is allowed
        if ¬ isRepoAllowed metadata.repository allowedRepos then []
        else
          -- Publish gear reaction to indicate deployment is starting
          let gearAttempt := Outbound.reaction
            (publishSlackReaction event.event.item.channel event.event.item.ts
              GearReaction false)
          -- Create and publish Poppit command
          let poppitCommand := createPoppitCommand metadata config
            event.event.item.channel event.event.item.ts
          match gearOk with
          | false =>
            -- Error publishing gear reaction: logged;
            -- continue even if reaction fails - deployment should still proceed
            [gearAttempt, Outbound.command poppitCommand]
          | true =>
            [gearAttempt, Outbound.command poppitCommand]

/-- `processCommandOutput`: one pass of the Completion Listener over a
decoded completion notice (`none` models a JSON parse failure). The result
lists the reaction mutations published, in order; publish failures are
logged and do not change the sequence of attempts. -/
def processCommandOutput (payload : Option CommandOutput) :
    List SlackReaction :=
  match payload with
  | none => []  -- Error parsing command output
  | some output =>
    -- Only process vibe-deploy type commands
    if output.type ≠ VibeDeployType then []
    -- Only process docker compose up -d command
    else if output.command ≠ DeploymentCommand then []
    else
      match output.metadata with
      | none => []  -- missing metadata, cannot send reaction
      | some md =>
        -- Remove gear reaction, then publish rocket reaction
        [publishSlackReaction md.channel md.ts GearReaction true,
         publishSlackReaction md.channel md.ts RocketReaction false]

/-- `json.Marshal` of a `PoppitCommand`: struct fields in declaration
order; the `metadata` pointer is tagged `omitempty`, so a `nil` pointer is
omitted from the object. -/
def encodePoppitCommand (cmd : PoppitCommand) : Json :=
  .obj ([("repo", .str cmd.repo),
         ("branch", .str cmd.branch),
         ("type", .str cmd.type),
         ("dir", .str cmd.dir),
         ("commands", .arr (cmd.commands.map .str))] ++
    match cmd.metadata with
    | none => []
    | some md =>
      [("metadata", .obj [("channel", .str md.channel), ("ts", .str md.ts)])])

/-- Go `encoding/json` unmarshalling of a JSON value into a `[]string`:
`null` leaves the nil slice, an array decodes element-wise, and each
element must be a string or `null` (zero value `""`). -/
def decodeStringElems (elems : List Json) : Except String (List String) :=
  match elems with
  | [] => .ok []
  | e :: rest =>
    match e with
    | .str s => do
      let tail ← decodeStringElems rest
      return s :: tail
    | .null => do
      let tail ← decodeStringElems rest
      return "" :: tail
    | _ => .error "cannot unmarshal into Go value of type string"

/-- Go `encoding/json` unmarshalling of an object field into `[]string`. -/
def decodeStringListField (fields : List (String × Json)) (key : String) :
    Except String (List String) :=
  match getField fields key with
  | none => .ok []
  | some .null => .ok []
  | some (.arr elems) => decodeStringElems elems
  | some _ => .error ("cannot unmarshal into Go value of type []string: " ++ key)

/-- Go `encoding/json` unmarshalling of an object field into
`*CommandMetadata`: missing key or `null` leaves the nil pointer. -/
def decodeMetadataField (fields : List (String × Json)) (key : String) :
    Except String (Option CommandMetadata) :=
  match getField fields key with
  | none => .ok none
  | some .null => .ok none
  | some (.obj inner) => do
    let channel ← decodeStringField inner "channel"
    let ts ← decodeStringField inner "ts"
    return some { channel, ts }
  | some _ =>
    .error ("cannot unmarshal into Go value of type CommandMetadata: " ++ key)

/-- `json.Unmarshal` of a JSON value into a `PoppitCommand`. -/
def decodePoppitCommand (j : Json) : Except String PoppitCommand :=
  match j with
  | .obj fields => do
    let repo ← decodeStringField fields "repo"
    let branch ← decodeStringField fields "branch"
    let type ← decodeStringField fields "type"
    let dir ← decodeStringField fields "dir"
    let commands ← decodeStringListField fields "commands"
    let metadata ← decodeMetadataField fields "metadata"
    return { repo, branch, type, dir, commands, metadata }
  | .null => .ok { repo := "", branch := "", type := "", dir := ""
                   commands := [], metadata := none }
  | _ => .error "cannot unmarshal into Go value of type PoppitCommand"

/-- The deployment commands among a list of outbound publish attempts. -/
def commandsOf (outs : List Outbound) : List PoppitCommand :=
  outs.filterMap (fun o => match o with
    | .command c => some c
    | .reaction _ => none)

/-! ## Helper lemmas -/

/-- Trace shape: processing a reaction event either publishes nothing, or
publishes exactly the gear mutation followed by the synthesized command. -/
theorem processReactionEvent_shape (payload : Option ReactionEvent)
    (history : Except String (List SlackMessage)) (config : Config)
    (allowedRepos : Option (List (String × Bool))) (gearOk : Bool) :
    processReactionEvent payload history config allowedRepos gearOk = [] ∨
    ∃ event metadata, payload = some event ∧
      getMessageMetadata history = Except.ok (some metadata) ∧
      isRepoAllowed metadata.repository allowedRepos = true ∧
      processReactionEvent payload history config allowedRepos gearOk =
        [Outbound.reaction (publishSlackReaction event.event.item.channel
            event.event.item.ts GearReaction false),
         Outbound.command (createPoppitCommand metadata config
            event.event.item.channel event.event.item.ts)] := by
  cases payload with
  | none => exact Or.inl rfl
  | some event =>
    by_cases h1 : event.event.reaction = RocketReaction
    · by_cases h2 : event.event.item.type = "message"
      · by_cases h3 : event.authorizations.any
            (fun auth => auth.isBot && auth.userID = event.event.user) = true
        · exact Or.inl (by simp [processReactionEvent, h1, h2, h3])
        · cases hm : getMessageMetadata history with
          | error e => exact Or.inl (by simp [processReactionEvent, h1, h2, h3, hm])
          | ok o =>
            cases o with
            | none => exact Or.inl (by simp [processReactionEvent, h1, h2, h3, hm])
            | some metadata =>
              by_cases h4 : isRepoAllowed metadata.repository allowedRepos = true
              · refine Or.inr ⟨event, metadata, rfl, rfl, h4, ?_⟩
                cases gearOk <;> simp [processReactionEvent, h1, h2, h3, hm, h4]
              · exact Or.inl (by simp [processReactionEvent, h1, h2, h3, hm, h4])
      · exact Or.inl (by simp [processReactionEvent, h1, h2])
    · exact Or.inl (by simp [processReactionEvent, h1])

/-- The gear-publish outcome influences only logging, never the outbound
trace. -/
theorem processReactionEvent_gearOk_irrelevant (payload : Option ReactionEvent)
    (history : Except String (List SlackMessage)) (config : Config)
    (allowedRepos : Option (List (String × Bool))) (a b : Bool) :
    processReactionEvent payload history config allowedRepos a =
      processReactionEvent payload history config allowedRepos b := by
  cases payload with
  | none => rfl
  | some event => cases a <;> cases b <;> rfl

/-! ## Claim theorems -/

/-- **C1**: for every resolved PRMetadata with non-empty repository and
branch that passes the allowlist gate, processing the reaction event
enqueues exactly one DeploymentCommand whose repo and branch equal the
metadata's, whose type tag is "vibe-deploy", whose dir is `base_dir`
joined with "/" and the repository identifier, and whose instruction list
is exactly, in order: fetch, checkout-branch, pull, build, stop, start,
checkout-default. -/
theorem reaction_event_enqueues_exact_command (event : ReactionEvent)
    (history : Except String (List SlackMessage)) (config : Config)
    (allowedRepos : Option (List (String × Bool))) (gearOk : Bool)
    (metadata : PRMetadata)
    (hreact : event.event.reaction = RocketReaction)
    (hitem : event.event.item.type = "message")
    (hbot : event.authorizations.any
        (fun auth => auth.isBot && auth.userID = event.event.user) = false)
    (hfetch : getMessageMetadata history = Except.ok (some metadata))
    (hrepo : metadata.repository ≠ "")
    (hbranch : metadata.branch ≠ "")
    (hallow : isRepoAllowed metadata.repository allowedRepos = true) :
    commandsOf (processReactionEvent (some event) history config allowedRepos gearOk) =
      [{ repo := metadata.repository
         branch := metadata.branch
         type := "vibe-deploy"
         dir := config.baseDir ++ "/" ++ metadata.repository
         commands := ["git fetch origin",
           "git checkout " ++ metadata.branch,
           "git pull",
           "docker compose build",
           "docker compose down",
           "docker compose up -d",
           "git checkout main"]
         metadata := some { channel := event.event.item.channel
                            ts := event.event.item.ts } }] := by
  cases gearOk <;>
    simp [processReactionEvent, commandsOf, hreact, hitem, hbot, hfetch, hallow,
      createPoppitCommand, publishSlackReaction, VibeDeployType, DeploymentCommand]

/-- Witness for C1 at a concrete happy-path input. -/
theorem reaction_event_enqueues_exact_command_witness :
    commandsOf (processReactionEvent
      (some ⟨⟨"reaction_added", "U1", "rocket", ⟨"message", "C1", "100.1"⟩⟩,
        [⟨"B1", true⟩]⟩)
      (Except.ok [⟨[("repository", Json.str "org/app"),
        ("branch", Json.str "feat/x")]⟩])
      ⟨"localhost:6379", "", "t", "/app/repos", "slack-relay-reaction-added",
        "poppit-commands", "poppit:command-output", "slack_reactions", ""⟩
      none true) =
      [{ repo := "org/app", branch := "feat/x", type := "vibe-deploy",
         dir := "/app/repos/org/app",
         commands := ["git fetch origin", "git checkout feat/x", "git pull",
           "docker compose build", "docker compose down", "docker compose up -d",
           "git checkout main"],
         metadata := some { channel := "C1", ts := "100.1" } }] :=
  reaction_event_enqueues_exact_command _ _ _ _ _
    { prNumber := 0, repository := "org/app", prUrl := "", author := "",
      branch := "feat/x", eventAction := "" }
    rfl rfl rfl (by rfl) (by decide) (by decide) rfl

/-- **C4**: an inbound reaction event whose reaction name is not exactly
"rocket", or whose item type is not "message", or whose acting user
appears in the authorizations list with `is_bot = true`, produces no
outbound message of any kind. -/
theorem filtered_events_produce_no_outbound (event : ReactionEvent)
    (history : Except String (List SlackMessage)) (config : Config)
    (allowedRepos : Option (List (String × Bool))) (gearOk : Bool)
    (h : event.event.reaction ≠ RocketReaction ∨
         event.event.item.type ≠ "message" ∨
         ∃ auth ∈ event.authorizations,
           auth.isBot = true ∧ auth.userID = event.event.user) :
    processReactionEvent (some event) history config allowedRepos gearOk = [] := by
  rcases h with h | h | ⟨auth, hmem, hbot, huser⟩
  · simp [processReactionEvent, h]
  · by_cases h1 : event.event.reaction = RocketReaction
    · simp [processReactionEvent, h1, h]
    · simp [processReactionEvent, h1]
  · by_cases h1 : event.event.reaction = RocketReaction
    · by_cases h2 : event.event.item.type = "message"
      · have hany : event.authorizations.any
            (fun a => a.isBot && a.userID = event.event.user) = true :=
          List.any_eq_true.mpr ⟨auth, hmem, by simp [hbot, huser]⟩
        simp [processReactionEvent, h1, h2, hany]
      · simp [processReactionEvent, h1, h2]
    · simp [processReactionEvent, h1]

/-- Witness for C4 at a concrete non-trigger reaction. -/
theorem filtered_events_produce_no_outbound_witness :
    processReactionEvent
      (some ⟨⟨"reaction_added", "U1", "eyes", ⟨"message", "C1", "100.1"⟩⟩, []⟩)
      (Except.ok []) ⟨"", "", "", "/app/repos", "", "", "", "", ""⟩
      none true = [] :=
  filtered_events_produce_no_outbound _ _ _ _ _ (Or.inl (by decide))

/-- **C2**: a decodable CompletionNotice yields exactly the ordered pair
of StatusMutations (gear, remove) then (rocket, add), both on the notice's
(channel, ts), precisely when its type is "vibe-deploy", its command is
the go-live instruction and its correlation block is present; otherwise it
yields zero mutations. -/
theorem completion_notice_mutation_sequence (output : CommandOutput) :
    (∀ md, output.metadata = some md →
      output.type = VibeDeployType →
      output.command = DeploymentCommand →
      processCommandOutput (some output) =
        [{ reaction := "gear", channel := md.channel, ts := md.ts, remove := true },
         { reaction := "rocket", channel := md.channel, ts := md.ts, remove := false }]) ∧
    ((output.type ≠ VibeDeployType ∨ output.command ≠ DeploymentCommand ∨
        output.metadata = none) →
      processCommandOutput (some output) = []) := by
  constructor
  · intro md hmd htype hcmd
    simp [processCommandOutput, hmd, htype, hcmd, publishSlackReaction,
      GearReaction, RocketReaction]
  · rintro (h | h | h)
    · simp [processCommandOutput, h]
    · by_cases h1 : output.type = VibeDeployType
      · simp [processCommandOutput, h1, h]
      · simp [processCommandOutput, h1]
    · by_cases h1 : output.type = VibeDeployType
      · by_cases h2 : output.command = DeploymentCommand
        · simp [processCommandOutput, h1, h2, h]
        · simp [processCommandOutput, h1, h2]
      · simp [processCommandOutput, h1]

/-- Witness for C2 at a concrete matching completion notice. -/
theorem completion_notice_mutation_sequence_witness :
    processCommandOutput (some ⟨some ⟨"C1", "100.1"⟩, "vibe-deploy",
        "docker compose up -d", "done"⟩) =
      [⟨"gear", "C1", "100.1", true⟩, ⟨"rocket", "C1", "100.1", false⟩] :=
  (completion_notice_mutation_sequence _).1 ⟨"C1", "100.1"⟩ rfl rfl rfl

/-- **C10**: two CompletionNotices agreeing on type, command and
correlation metadata but differing arbitrarily in free-text output produce
identical StatusMutation sequences: the output text never influences the
published reactions. -/
theorem completion_ignores_output_text (o₁ o₂ : CommandOutput)
    (htype : o₁.type = o₂.type) (hcmd : o₁.command = o₂.command)
    (hmd : o₁.metadata = o₂.metadata) :
    processCommandOutput (some o₁) = processCommandOutput (some o₂) := by
  obtain ⟨md₁, t₁, c₁, s₁⟩ := o₁
  obtain ⟨md₂, t₂, c₂, s₂⟩ := o₂
  simp only at htype hcmd hmd
  subst htype hcmd hmd
  rfl

/-- Witness for C10: a notice whose output reports failure and one whose
output reports success are reflected identically. -/
theorem completion_ignores_output_text_witness :
    processCommandOutput (some ⟨some ⟨"C1", "100.1"⟩, "vibe-deploy",
        "docker compose up -d", "Deployment FAILED"⟩) =
      processCommandOutput (some ⟨some ⟨"C1", "100.1"⟩, "vibe-deploy",
        "docker compose up -d", "ok"⟩) :=
  completion_ignores_output_text _ _ rfl rfl rfl

/-- **C9**: every DeploymentCommand that processing a reaction event
enqueues carries a non-nil correlation block equal to the (channel, ts)
of the triggering event's item, despite the wire format marking the field
optional. -/
theorem enqueued_command_carries_correlation (event : ReactionEvent)
    (history : Except String (List SlackMessage)) (config : Config)
    (allowedRepos : Option (List (String × Bool))) (gearOk : Bool)
    (cmd : PoppitCommand)
    (h : Outbound.command cmd ∈
      processReactionEvent (some event) history config allowedRepos gearOk) :
    cmd.metadata = some { channel := event.event.item.channel
                          ts := event.event.item.ts } := by
  rcases processReactionEvent_shape (some event) history config allowedRepos gearOk
    with hsh | ⟨ev, md, hev, _, _, hsh⟩
  · rw [hsh] at h
    cases h
  · cases Option.some.inj hev
    rw [hsh] at h
    simp only [List.mem_cons, List.not_mem_nil, or_false] at h
    rcases h with h | h
    · exact absurd h (by simp)
    · have hc : cmd = createPoppitCommand md config event.event.item.channel
          event.event.item.ts := (Outbound.command.inj h.symm).symm
      rw [hc]
      rfl

/-- Witness for C9 at a concrete happy-path trace. -/
theorem enqueued_command_carries_correlation_witness :
    ({ repo := "org/app", branch := "feat/x", type := "vibe-deploy",
       dir := "/app/repos/org/app",
       commands := ["git fetch origin", "git checkout feat/x", "git pull",
         "docker compose build", "docker compose down", "docker compose up -d",
         "git checkout main"],
       metadata := some ⟨"C1", "100.1"⟩ } : PoppitCommand).metadata =
      some { channel := "C1", ts := "100.1" } :=
  enqueued_command_carries_correlation
    ⟨⟨"reaction_added", "U1", "rocket", ⟨"message", "C1", "100.1"⟩⟩, []⟩
    (Except.ok [⟨[("repository", Json.str "org/app"),
      ("branch", Json.str "feat/x")]⟩])
    ⟨"", "", "", "/app/repos", "", "", "", "", ""⟩ none true _ (by decide)

/-- **C8**: with a configured path and a present file that parses to an
empty `allowed_repos` list, `loadAllowedRepos` returns a non-nil empty
set, and `isRepoAllowed` then denies every repository identifier. -/
theorem empty_allowlist_denies_all (configPath repo : String)
    (h : configPath ≠ "") :
    loadAllowedRepos configPath (FileState.parsed ⟨[]⟩) =
      Except.ok (some []) ∧
    isRepoAllowed repo (some []) = false := by
  constructor
  · simp [loadAllowedRepos, h]
  · rfl

/-- Witness for C8 at a concrete path and repository. -/
theorem empty_allowlist_denies_all_witness :
    loadAllowedRepos "allowed.yaml" (FileState.parsed ⟨[]⟩) =
      Except.ok (some []) ∧
    isRepoAllowed "org/app" (some []) = false :=
  empty_allowlist_denies_all "allowed.yaml" "org/app" (by decide)

/-- **C6**: the allowlist predicate permits everything when no set was
loaded, permits exactly the loaded identifiers by exact string equality
when a set was loaded, and a resolved repository that the configured
allowlist denies yields zero enqueued commands and zero in-progress
mutations. -/
theorem allowlist_membership_and_gating (repo : String) (l : List String)
    (event : ReactionEvent) (history : Except String (List SlackMessage))
    (config : Config) (allowedRepos : Option (List (String × Bool)))
    (gearOk : Bool) (md : PRMetadata) :
    isRepoAllowed repo none = true ∧
    (isRepoAllowed repo (some (l.map (fun r => (r, true)))) = true ↔
      repo ∈ l) ∧
    (getMessageMetadata history = Except.ok (some md) →
      isRepoAllowed md.repository allowedRepos = false →
      processReactionEvent (some event) history config allowedRepos gearOk = []) := by
  refine ⟨rfl, ?_, ?_⟩
  · induction l with
    | nil => simp [isRepoAllowed]
    | cons a as ih =>
      by_cases hb : repo = a
      · subst hb
        simp [isRepoAllowed, List.lookup]
      · have hbeq : (repo == a) = false := beq_false_of_ne hb
        simp only [isRepoAllowed, List.map_cons, List.lookup, hbeq] at ih ⊢
        rw [ih]
        simp [List.mem_cons, hb]
  · intro hfetch hdeny
    by_cases h1 : event.event.reaction = RocketReaction
    · by_cases h2 : event.event.item.type = "message"
      · by_cases h3 : event.authorizations.any
            (fun auth => auth.isBot && auth.userID = event.event.user) = true
        · simp [processReactionEvent, h1, h2, h3]
        · simp [processReactionEvent, h1, h2, h3, hfetch, hdeny]
      · simp [processReactionEvent, h1, h2]
    · simp [processReactionEvent, h1]

/-- Witness for C6 at concrete allowlists and a concrete denied event. -/
theorem allowlist_membership_and_gating_witness :
    isRepoAllowed "org/app" none = true ∧
    (isRepoAllowed "org/app"
        (some ((["org/app", "org/other"]).map (fun r => (r, true)))) = true ↔
      "org/app" ∈ ["org/app", "org/other"]) ∧
    processReactionEvent
      (some ⟨⟨"reaction_added", "U1", "rocket", ⟨"message", "C1", "100.1"⟩⟩, []⟩)
      (Except.ok [⟨[("repository", Json.str "org/app"),
        ("branch", Json.str "feat/x")]⟩])
      ⟨"", "", "", "/app/repos", "", "", "", "", ""⟩
      (some [("other/repo", true)]) true = [] := by
  obtain ⟨h1, h2, h3⟩ := allowlist_membership_and_gating "org/app"
    ["org/app", "org/other"]
    ⟨⟨"reaction_added", "U1", "rocket", ⟨"message", "C1", "100.1"⟩⟩, []⟩
    (Except.ok [⟨[("repository", Json.str "org/app"),
      ("branch", Json.str "feat/x")]⟩])
    ⟨"", "", "", "/app/repos", "", "", "", "", ""⟩
    (some [("other/repo", true)]) true
    ⟨0, "org/app", "", "", "feat/x", ""⟩
  exact ⟨h1, h2, h3 rfl rfl⟩

/-- **C3**: in the trace produced by processing one reaction event, every
enqueued DeploymentCommand is preceded by exactly one attempt to publish
an add-"gear" mutation on the same (channel, ts) as the command's
correlation block, and the gear publish outcome never prevents the
enqueue. -/
theorem gear_precedes_enqueued_command (payload : Option ReactionEvent)
    (history : Except String (List SlackMessage)) (config : Config)
    (allowedRepos : Option (List (String × Bool))) (gearOk : Bool) :
    (∀ pre cmd post,
      processReactionEvent payload history config allowedRepos gearOk =
        pre ++ Outbound.command cmd :: post →
      ∃ ch ts, cmd.metadata = some { channel := ch, ts := ts } ∧
        (pre.filter (fun o =>
          o = Outbound.reaction ⟨GearReaction, ch, ts, false⟩)).length = 1) ∧
    processReactionEvent payload history config allowedRepos true =
      processReactionEvent payload history config allowedRepos false := by
  refine ⟨?_, processReactionEvent_gearOk_irrelevant payload history config
    allowedRepos true false⟩
  intro pre cmd post heq
  rcases processReactionEvent_shape payload history config allowedRepos gearOk
    with hsh | ⟨ev, md, hev, hm, hal, hsh⟩
  · rw [hsh] at heq
    exact absurd (List.append_eq_nil.mp heq.symm).2 (List.cons_ne_nil _ _)
  · rw [hsh] at heq
    cases pre with
    | nil => simp at heq
    | cons a pre' =>
      cases pre' with
      | nil =>
        simp only [List.cons_append, List.nil_append, List.cons.injEq] at heq
        obtain ⟨ha, hc, _⟩ := heq
        refine ⟨ev.event.item.channel, ev.event.item.ts, ?_, ?_⟩
        · rw [← Outbound.command.inj hc]
          rfl
        · subst ha
          simp [publishSlackReaction, List.filter]
      | cons b pre'' =>
        simp only [List.cons_append, List.cons.injEq] at heq
        exact absurd (List.append_eq_nil.mp heq.2.2.symm).2 (List.cons_ne_nil _ _)

/-- Witness for C3 at a concrete happy-path trace decomposition. -/
theorem gear_precedes_enqueued_command_witness :
    ∃ ch ts,
      (createPoppitCommand ⟨0, "org/app", "", "", "feat/x", ""⟩
        ⟨"", "", "", "/app/repos", "", "", "", "", ""⟩ "C1" "100.1").metadata =
        some { channel := ch, ts := ts } ∧
      (([Outbound.reaction ⟨"gear", "C1", "100.1", false⟩]).filter (fun o =>
        o = Outbound.reaction ⟨GearReaction, ch, ts, false⟩)).length = 1 :=
  (gear_precedes_enqueued_command
    (some ⟨⟨"reaction_added", "U1", "rocket", ⟨"message", "C1", "100.1"⟩⟩, []⟩)
    (Except.ok [⟨[("repository", Json.str "org/app"),
      ("branch", Json.str "feat/x")]⟩])
    ⟨"", "", "", "/app/repos", "", "", "", "", ""⟩ none true).1
    [Outbound.reaction ⟨"gear", "C1", "100.1", false⟩]
    (createPoppitCommand ⟨0, "org/app", "", "", "feat/x", ""⟩
      ⟨"", "", "", "/app/repos", "", "", "", "", ""⟩ "C1" "100.1")
    [] (by rfl)

/-- Decoding the element-wise string encoding of a list recovers the
list. -/
theorem decodeStringElems_map_str (xs : List String) :
    decodeStringElems (xs.map Json.str) = Except.ok xs := by
  induction xs with
  | nil => rfl
  | cons a as ih => simp [decodeStringElems, ih]

/-- **C7**: JSON-encoding a DeploymentCommand and decoding the result
yields the identical command; in particular the ordered instruction list
is preserved exactly. -/
theorem poppit_command_roundtrip (cmd : PoppitCommand) :
    decodePoppitCommand (encodePoppitCommand cmd) = Except.ok cmd := by
  obtain ⟨repo, branch, type, dir, commands, metadata⟩ := cmd
  cases metadata with
  | none =>
    simp [encodePoppitCommand, decodePoppitCommand, decodeStringField,
      decodeStringListField, decodeMetadataField, getField, List.find?,
      decodeStringElems_map_str]
    rfl
  | some md =>
    obtain ⟨channel, ts⟩ := md
    simp [encodePoppitCommand, decodePoppitCommand, decodeStringField,
      decodeStringListField, decodeMetadataField, getField, List.find?,
      decodeStringElems_map_str]
    rfl

/-- **C5 counterexample**: a present metadata payload whose `repository`
field is a JSON number (malformed for the PRMetadata shape) makes the
resolver return a hard error, not the non-error "no metadata" result the
claim requires for malformed metadata. -/
theorem malformed_metadata_is_hard_error :
    getMessageMetadata (Except.ok [⟨[("repository", Json.num 1)]⟩]) =
      Except.error ("failed to parse PR metadata: " ++
        "cannot unmarshal into Go value of type string: repository") := rfl

/-- **C5 (amended)**: the resolver returns a hard error for a transport
failure, for zero messages, and for present metadata that fails
structural decoding into the PRMetadata shape; absent metadata, and
metadata that decodes (foreign fields ignored) but lacks the repository
identifier or the branch name, yield the distinct non-error "no metadata"
result. -/
theorem resolver_outcome_trichotomy (e : String)
    (payload : List (String × Json)) (rest : List SlackMessage) :
    (∃ s, getMessageMetadata (Except.error e) = Except.error s) ∧
    (∃ s, getMessageMetadata (Except.ok []) = Except.error s) ∧
    getMessageMetadata (Except.ok (⟨[]⟩ :: rest)) = Except.ok none ∧
    (∀ err, payload ≠ [] → decodePRMetadata payload = Except.error err →
      ∃ s, getMessageMetadata (Except.ok (⟨payload⟩ :: rest)) =
        Except.error s) ∧
    (∀ md, decodePRMetadata payload = Except.ok md →
      md.repository = "" ∨ md.branch = "" →
      getMessageMetadata (Except.ok (⟨payload⟩ :: rest)) = Except.ok none) ∧
    (∀ md, decodePRMetadata payload = Except.ok md →
      md.repository ≠ "" → md.branch ≠ "" →
      getMessageMetadata (Except.ok (⟨payload⟩ :: rest)) =
        Except.ok (some md)) := by
  refine ⟨⟨_, rfl⟩, ⟨_, rfl⟩, rfl, ?_, ?_, ?_⟩
  · intro err hne hdec
    refine ⟨"failed to parse PR metadata: " ++ err, ?_⟩
    simp [getMessageMetadata, List.length_eq_zero, hne, hdec]
  · intro md hdec hempty
    by_cases hp : payload = []
    · subst hp
      rfl
    · rcases hempty with h | h <;>
        simp [getMessageMetadata, List.length_eq_zero, hp, hdec, h]
  · intro md hdec hrepo hbranch
    by_cases hp : payload = []
    · subst hp
      exact absurd (congrArg PRMetadata.repository
        (Except.ok.inj hdec)).symm hrepo
    · simp [getMessageMetadata, List.length_eq_zero, hp, hdec, hrepo, hbranch]

/-- Witness for C5 (amended) at a concrete well-formed payload. -/
theorem resolver_outcome_trichotomy_witness :
    getMessageMetadata (Except.ok [⟨[("repository", Json.str "org/app"),
        ("branch", Json.str "feat/x")]⟩]) =
      Except.ok (some ⟨0, "org/app", "", "", "feat/x", ""⟩) :=
  (resolver_outcome_trichotomy "boom"
    [("repository", Json.str "org/app"), ("branch", Json.str "feat/x")]
    []).2.2.2.2.2 ⟨0, "org/app", "", "", "feat/x", ""⟩ rfl
    (by decide) (by decide)

end VibeDeploy
